import Mathlib

/-!
Verification of the pdfium/qpdf WASM binding layer (`src/src/lib.rs`,
`src/src/error.rs`) against its natural-language specification.

Shallow embedding conventions:
* The native engine (PDFium + QPDF) is an abstract deterministic oracle
  `Engine`; handles are `Nat`, C ints are `Int`, byte buffers are `List Nat`,
  UTF-16 buffers are `List Nat` of code units, managed strings are `List Char`.
* Every native call performed by the Rust code is recorded as an event `Ev`
  in an execution trace, so that claims about call counts, handle
  acquisition/release and call ordering can be stated on the trace.
* The process-wide `std::sync::Once` latch is a `Bool` threaded through the
  operations; `Once.call_once` runs its closure if and only if the latch is
  unset, and is an atomic critical section, so any stream of concurrent or
  sequential calls is observed as a serialized sequence of latch steps.
* Rust `Result<T, PdfiumError>` becomes `Except PdfiumError T`; the raw
  pointers of the C-ABI shim become `Option` (`none` = null pointer).
-/

namespace PdfiumWasm

/-- Error taxonomy of `src/src/error.rs` (`PdfiumError`). -/
inductive PdfiumError where
  | initializationFailed
  | invalidData
  | extractionFailed (reason : String)
  | conversionFailed (reason : String)
  deriving DecidableEq

/-- One native-engine call performed by the binding layer, with its inputs
and (for acquisitions) its result; traces of these model the FFI activity of
a run.  `initLib` is `FPDF_InitLibraryWithConfig`, `loadDoc` is
`FPDF_LoadMemDocument`, `pageCount` is `FPDF_GetPageCount`, `loadPage` is
`FPDF_LoadPage`, `closePage` is `FPDF_ClosePage`, `loadTextPage` is
`FPDFText_LoadPage`, `closeTextPage` is `FPDFText_ClosePage`, `countChars`
is `FPDFText_CountChars`, `getText` is `FPDFText_GetText`, `closeDoc` is
`FPDF_CloseDocument`, `qpdfConvert` is `IPDF_QPDF_PDFToJSON` and `qpdfFree`
is `IPDF_QPDF_FreeString`. -/
inductive Ev where
  | initLib
  | loadDoc (res : Option Nat)
  | pageCount (d : Nat) (n : Int)
  | loadPage (d : Nat) (i : Nat) (res : Option Nat)
  | closePage (p : Nat)
  | loadTextPage (p : Nat) (res : Option Nat)
  | closeTextPage (t : Nat)
  | countChars (t : Nat) (n : Int)
  | getText (t : Nat) (count : Int) (written : Int)
  | closeDoc (d : Nat)
  | qpdfConvert (bytes : List Nat) (size : Nat) (version : Int) (res : Option (List Nat))
  | qpdfFree
  deriving DecidableEq

/-- The native engine as a deterministic oracle: one field per foreign
function the pipelines call.  `loadMemDocument` takes the byte buffer and
the `c_int` size; `getText` takes a text-page handle and the requested
count, returning the reported number of UTF-16 units written together with
the contents of the caller-supplied buffer after the call. -/
structure Engine where
  loadMemDocument : List Nat → Int → Option Nat
  getPageCount : Nat → Int
  loadPage : Nat → Nat → Option Nat
  textLoadPage : Nat → Option Nat
  countChars : Nat → Int
  getText : Nat → Int → Int × List Nat
  pdfToJson : List Nat → Nat → Int → Option (List Nat)

/-- Wrapping cast of a `usize` value to `i32`, as in `pdf_bytes.len() as i32`. -/
def as32 (n : Nat) : Int := ((n : Int) + 2 ^ 31) % 2 ^ 32 - 2 ^ 31

/-- Replacement character U+FFFD used by the lossy decoders. -/
def repl : Char := '�'

/-- Lossy UTF-16 decoding, the semantics of Rust's
`String::from_utf16_lossy`: well-formed surrogate pairs combine, lone
surrogates become U+FFFD, every other unit is the corresponding scalar.
Units are reduced mod 2^16 since the Rust buffer holds `u16`. -/
def utf16Lossy : List Nat → List Char
  | [] => []
  | u :: rest =>
    let u' := u % 65536
    if 55296 ≤ u' ∧ u' ≤ 56319 then
      match rest with
      | [] => [repl]
      | v :: rest' =>
        let v' := v % 65536
        if 56320 ≤ v' ∧ v' ≤ 57343 then
          Char.ofNat (65536 + (u' - 55296) * 1024 + (v' - 56320)) :: utf16Lossy rest'
        else
          repl :: utf16Lossy (v :: rest')
    else if 56320 ≤ u' ∧ u' ≤ 57343 then
      repl :: utf16Lossy rest
    else
      Char.ofNat u' :: utf16Lossy rest

/-- Whether a byte is a UTF-8 continuation byte. -/
def isCont (b : Nat) : Bool := 128 ≤ b && b ≤ 191

/-- Admissible second byte of a multi-byte UTF-8 sequence with lead byte
`b`, per the restricted ranges that exclude overlong forms and surrogates. -/
def utf8Snd (b c : Nat) : Bool :=
  if b == 224 then 160 ≤ c && c ≤ 191
  else if b == 237 then 128 ≤ c && c ≤ 159
  else if b == 240 then 144 ≤ c && c ≤ 191
  else if b == 244 then 128 ≤ c && c ≤ 143
  else isCont c

/-- Lossy UTF-8 decoding, the semantics of Rust's
`CStr::to_string_lossy` / `String::from_utf8_lossy`: each maximal valid
prefix of an ill-formed sequence is replaced by one U+FFFD. -/
def utf8Lossy : List Nat → List Char
  | [] => []
  | b :: rest =>
    if b < 128 then Char.ofNat b :: utf8Lossy rest
    else if 194 ≤ b && b ≤ 223 then
      match rest with
      | [] => [repl]
      | c :: rest1 =>
        if isCont c then Char.ofNat ((b - 192) * 64 + (c - 128)) :: utf8Lossy rest1
        else repl :: utf8Lossy (c :: rest1)
    else if 224 ≤ b && b ≤ 239 then
      match rest with
      | [] => [repl]
      | c :: rest1 =>
        if utf8Snd b c then
          match rest1 with
          | [] => [repl]
          | c2 :: rest2 =>
            if isCont c2 then
              Char.ofNat ((b - 224) * 4096 + (c - 128) * 64 + (c2 - 128)) :: utf8Lossy rest2
            else repl :: utf8Lossy (c2 :: rest2)
        else repl :: utf8Lossy (c :: rest1)
    else if 240 ≤ b && b ≤ 244 then
      match rest with
      | [] => [repl]
      | c :: rest1 =>
        if utf8Snd b c then
          match rest1 with
          | [] => [repl]
          | c2 :: rest2 =>
            if isCont c2 then
              match rest2 with
              | [] => [repl]
              | c3 :: rest3 =>
                if isCont c3 then
                  Char.ofNat ((b - 240) * 262144 + (c - 128) * 4096 +
                    (c2 - 128) * 64 + (c3 - 128)) :: utf8Lossy rest3
                else repl :: utf8Lossy (c3 :: rest3)
            else repl :: utf8Lossy (c2 :: rest2)
        else repl :: utf8Lossy (c :: rest1)
    else repl :: utf8Lossy rest

/-- UTF-8 encoding of one scalar value, the byte representation Rust uses
for `String`/`str`. -/
def utf8EncodeChar (c : Char) : List Nat :=
  let n := c.toNat
  if n < 128 then [n]
  else if n < 2048 then [192 + n / 64, 128 + n % 64]
  else if n < 65536 then [224 + n / 4096, 128 + n / 64 % 64, 128 + n % 64]
  else [240 + n / 262144, 128 + n / 4096 % 64, 128 + n / 64 % 64, 128 + n % 64]

/-- UTF-8 byte representation of a managed string. -/
def utf8Encode (s : List Char) : List Nat := (s.map utf8EncodeChar).flatten

/-- The page-break separator literal appended between pages, the characters
of the Rust string literal in `extract_text`. -/
def sepChars : List Char :=
  ['\n', '-', '-', '-', 'P', 'A', 'G', 'E', ' ', 'B', 'R', 'E', 'A', 'K', '-', '-', '-', '\n']

/-- The separator characters are exactly those of the source literal. -/
theorem sepChars_eq_literal : sepChars = "\n---PAGE BREAK---\n".toList := by decide

/-- Text extracted from one successfully loaded page handle `p` (the body of
the loop of `extract_text` between `FPDFText_LoadPage` and
`FPDFText_ClosePage`, without the separator): empty when the text page
cannot be obtained or the character count is not positive; otherwise, when
the native call reports `w > 0` units written, the buffer truncated to
`w - 1` units and decoded lossily from UTF-16. -/
def pageTextOf (e : Engine) (p : Nat) : List Char :=
  match e.textLoadPage p with
  | none => []
  | some t =>
    let n := e.countChars t
    if 0 < n then
      let w := (e.getText t n).1
      if 0 < w then utf16Lossy ((e.getText t n).2.take (w - 1).toNat) else []
    else []

/-- Native calls of one loop iteration of `extract_text` for a successfully
loaded page handle `p` of document `d` at index `i`. -/
def pageEvsOf (e : Engine) (d : Nat) (i : Nat) (p : Nat) : List Ev :=
  match e.textLoadPage p with
  | none => [Ev.loadPage d i (some p), Ev.loadTextPage p none, Ev.closePage p]
  | some t =>
    let n := e.countChars t
    if 0 < n then
      [Ev.loadPage d i (some p), Ev.loadTextPage p (some t), Ev.countChars t n,
       Ev.getText t n (e.getText t n).1, Ev.closeTextPage t, Ev.closePage p]
    else
      [Ev.loadPage d i (some p), Ev.loadTextPage p (some t), Ev.countChars t n,
       Ev.closeTextPage t, Ev.closePage p]

/-- One loop iteration of `extract_text` at page index `i`: a null page
handle hits `continue` (no separator, no further calls); otherwise the page
text is produced and the separator is appended when `i < page_count - 1`. -/
def extractPage (e : Engine) (d : Nat) (pc : Int) (i : Nat) : List Ev × List Char :=
  match e.loadPage d i with
  | none => ([Ev.loadPage d i none], [])
  | some p =>
    (pageEvsOf e d i p,
     pageTextOf e p ++ if (i : Int) < pc - 1 then sepChars else [])

/-- The `initialize` function of `src/src/lib.rs`: a `std::sync::Once` step
(run `FPDF_InitLibraryWithConfig` exactly when the latch is unset) followed
by `Ok(())`.  Input: the latch; output: emitted trace, new latch, result. -/
def initializeR (st : Bool) : (List Ev × Bool) × Except PdfiumError Unit :=
  if st then (([], true), Except.ok ())
  else (([Ev.initLib], true), Except.ok ())

/-- The `extract_text` function of `src/src/lib.rs`.  Returns the trace of
native calls, the latch after the call, and the Rust result. -/
def extract_text (e : Engine) (st : Bool) (bytes : List Nat) :
    List Ev × Bool × Except PdfiumError (List Char) :=
  let initEvs : List Ev := (initializeR st).1.1
  if bytes.isEmpty then
    (initEvs, true, Except.error PdfiumError.invalidData)
  else
    match e.loadMemDocument bytes (as32 bytes.length) with
    | none =>
        (initEvs ++ [Ev.loadDoc none], true,
         Except.error (PdfiumError.extractionFailed "Failed to load PDF document"))
    | some d =>
        let pc := e.getPageCount d
        (initEvs ++ Ev.loadDoc (some d) :: Ev.pageCount d pc ::
           (((List.range pc.toNat).map fun i => (extractPage e d pc i).1).flatten
             ++ [Ev.closeDoc d]),
         true,
         Except.ok ((List.range pc.toNat).map fun i => (extractPage e d pc i).2).flatten)

/-- The `pdf_to_json` function of `src/src/lib.rs`: one call to
`IPDF_QPDF_PDFToJSON` with the buffer, its length and version `2`; on a
null result, `ConversionFailed`; otherwise the returned C string (bytes up
to the first NUL) is decoded lossily as UTF-8 and the native buffer is
freed with `IPDF_QPDF_FreeString`. -/
def pdf_to_json (e : Engine) (st : Bool) (bytes : List Nat) :
    List Ev × Bool × Except PdfiumError (List Char) :=
  let initEvs : List Ev := (initializeR st).1.1
  if bytes.isEmpty then
    (initEvs, true, Except.error PdfiumError.invalidData)
  else
    match e.pdfToJson bytes bytes.length 2 with
    | none =>
        (initEvs ++ [Ev.qpdfConvert bytes bytes.length 2 none], true,
         Except.error (PdfiumError.conversionFailed "Failed to convert PDF to JSON"))
    | some s =>
        (initEvs ++ [Ev.qpdfConvert bytes bytes.length 2 (some s), Ev.qpdfFree], true,
         Except.ok (utf8Lossy (s.takeWhile (fun b => b != 0))))

/-- Bytes of the buffer produced by
`CString::new(text).unwrap_or_default().into_raw()`: the UTF-8 bytes of the
text plus a NUL terminator, or the empty C string (a lone NUL) when the
text contains an interior NUL byte. -/
def cStringBytes (s : List Char) : List Nat :=
  let b := utf8Encode s
  if 0 ∈ b then [0] else b ++ [0]

/-- The C-ABI export `pdfium_wasm_init`: 1 on `Ok`, 0 on `Err`. -/
def pdfium_wasm_init (st : Bool) : (List Ev × Bool) × Int :=
  match (initializeR st).2 with
  | Except.ok _ => ((initializeR st).1, 1)
  | Except.error _ => ((initializeR st).1, 0)

/-- The C-ABI export `pdfium_wasm_extract_text`.  `pdf_data = none` models a
null pointer; a non-null pointer with length `pdf_len` reads that many bytes
from the pointed memory `mem`.  Output `none` models a null return. -/
def pdfium_wasm_extract_text (e : Engine) (st : Bool)
    (pdf_data : Option (List Nat)) (pdf_len : Nat) :
    List Ev × Bool × Option (List Nat) :=
  match pdf_data with
  | none => ([], st, none)
  | some mem =>
    if pdf_len = 0 then ([], st, none)
    else
      let r := extract_text e st (mem.take pdf_len)
      match r.2.2 with
      | Except.ok txt => (r.1, r.2.1, some (cStringBytes txt))
      | Except.error _ => (r.1, r.2.1, none)

/-- The C-ABI export `pdfium_wasm_pdf_to_json`, same conventions as
`pdfium_wasm_extract_text`. -/
def pdfium_wasm_pdf_to_json (e : Engine) (st : Bool)
    (pdf_data : Option (List Nat)) (pdf_len : Nat) :
    List Ev × Bool × Option (List Nat) :=
  match pdf_data with
  | none => ([], st, none)
  | some mem =>
    if pdf_len = 0 then ([], st, none)
    else
      let r := pdf_to_json e st (mem.take pdf_len)
      match r.2.2 with
      | Except.ok txt => (r.1, r.2.1, some (cStringBytes txt))
      | Except.error _ => (r.1, r.2.1, none)

/-- Repeated sequential calls to `initialize` starting from latch `st`:
trace, final latch, and the list of per-call results.  `Once.call_once`
executes under mutual exclusion, so a group of concurrent callers is
observed as some serialization, i.e. as an instance of this function. -/
def runInitCalls : Nat → Bool → List Ev × Bool × List (Except PdfiumError Unit)
  | 0, st => ([], st, [])
  | Nat.succ n, st =>
    let r := initializeR st
    let rest := runInitCalls n r.1.2
    (r.1.1 ++ rest.1, rest.2.1, r.2 :: rest.2.2)

/-- A public operation of the library, for stating process-wide properties
of arbitrary call sequences. -/
inductive Op where
  | initOp
  | extractOp (bytes : List Nat)
  | toJsonOp (bytes : List Nat)

/-- Trace and final latch of one public operation. -/
def runOp (e : Engine) (st : Bool) : Op → List Ev × Bool
  | Op.initOp => (initializeR st).1
  | Op.extractOp bs => ((extract_text e st bs).1, (extract_text e st bs).2.1)
  | Op.toJsonOp bs => ((pdf_to_json e st bs).1, (pdf_to_json e st bs).2.1)

/-- Trace and final latch of a sequence of public operations. -/
def runOps (e : Engine) : Bool → List Op → List Ev × Bool
  | st, [] => ([], st)
  | st, op :: ops =>
    let r := runOp e st op
    let rest := runOps e r.2 ops
    (r.1 ++ rest.1, rest.2)

/-- Page handle returned by each successful `FPDF_LoadPage` event. -/
def pageAcqOf : Ev → Option Nat
  | Ev.loadPage _ _ (some p) => some p
  | _ => none

/-- Page handle of each `FPDF_ClosePage` event. -/
def pageRelOf : Ev → Option Nat
  | Ev.closePage p => some p
  | _ => none

/-- Text-page handle returned by each successful `FPDFText_LoadPage` event. -/
def textAcqOf : Ev → Option Nat
  | Ev.loadTextPage _ (some t) => some t
  | _ => none

/-- Text-page handle of each `FPDFText_ClosePage` event. -/
def textRelOf : Ev → Option Nat
  | Ev.closeTextPage t => some t
  | _ => none

/-- Document handle of each `FPDF_CloseDocument` event. -/
def docRelOf : Ev → Option Nat
  | Ev.closeDoc d => some d
  | _ => none

/-- Whether an event is the native setup call `FPDF_InitLibraryWithConfig`. -/
def isInitEv : Ev → Bool
  | Ev.initLib => true
  | _ => false

/-- Whether an event is the conversion call `IPDF_QPDF_PDFToJSON`. -/
def isConvEv : Ev → Bool
  | Ev.qpdfConvert _ _ _ _ => true
  | _ => false

/-- Whether an event is the release call `IPDF_QPDF_FreeString`. -/
def isFreeEv : Ev → Bool
  | Ev.qpdfFree => true
  | _ => false

/-- Number of native setup calls in a trace. -/
def countInitLib (tr : List Ev) : Nat := (tr.filter isInitEv).length

/-- Boolean prefix test on character lists. -/
def startsWith : List Char → List Char → Bool
  | [], _ => true
  | _ :: _, [] => false
  | p :: ps, c :: cs => if p = c then startsWith ps cs else false

/-- Number of positions of `s` at which the pattern `pat` occurs (all
occurrences, including overlapping ones). -/
def countOcc (pat : List Char) : List Char → Nat
  | [] => if startsWith pat [] then 1 else 0
  | c :: s => (if startsWith pat (c :: s) then 1 else 0) + countOcc pat s

/-- Page texts joined by the separator, with no separator before the first
or after the last text. -/
def joinPages : List (List Char) → List Char
  | [] => []
  | [t] => t
  | t :: ts => t ++ sepChars ++ joinPages ts

/-- Text contribution of page index `i` of document `d` without any
separator: empty when the page fails to load. -/
def rawPageText (e : Engine) (d : Nat) (i : Nat) : List Char :=
  match e.loadPage d i with
  | none => []
  | some p => pageTextOf e p

/-- Concrete engine exercising all per-page branches: document handle 5
with 4 pages; page 0 fails to load, page 1 yields the text "Hi!", page 2
has no text page, page 3 has a zero character count.  The JSON converter
returns the C string for a two-byte object dump. -/
def mixEngine : Engine where
  loadMemDocument := fun _ _ => some 5
  getPageCount := fun _ => 4
  loadPage := fun _ i => if i = 0 then none else some (20 + i)
  textLoadPage := fun p => if p = 22 then none else some (40 + p)
  countChars := fun t => if t = 63 then 0 else 3
  getText := fun _ _ => (4, [72, 105, 33, 0])
  pdfToJson := fun _ _ _ => some [123, 125, 0]

/-- Concrete engine whose document loads with 3 pages, all unreadable. -/
def unreadableEngine : Engine where
  loadMemDocument := fun _ _ => some 7
  getPageCount := fun _ => 3
  loadPage := fun _ _ => none
  textLoadPage := fun _ => none
  countChars := fun _ => 0
  getText := fun _ _ => (0, [])
  pdfToJson := fun _ _ _ => none

/-- Concrete engine with 2 pages where page 0 fails to load and page 1 has
no text: the loop's `continue` on the null page handle skips the separator
push, so the output has no separator at all. -/
def skipEngine : Engine where
  loadMemDocument := fun _ _ => some 1
  getPageCount := fun _ => 2
  loadPage := fun _ i => if i = 0 then none else some 4
  textLoadPage := fun _ => some 6
  countChars := fun _ => 0
  getText := fun _ _ => (0, [])
  pdfToJson := fun _ _ _ => none

/-- Concrete engine with 2 pages whose extracted text is itself the
page-break separator (18 UTF-16 units plus the terminator unit). -/
def cexEngine : Engine where
  loadMemDocument := fun _ _ => some 1
  getPageCount := fun _ => 2
  loadPage := fun _ i => some (10 + i)
  textLoadPage := fun p => some (100 + p)
  countChars := fun _ => 18
  getText := fun _ _ => (19, (sepChars.map Char.toNat) ++ [0])
  pdfToJson := fun _ _ _ => none

/-- Concrete engine with one page whose extracted text is a single NUL
character, producing a managed string with an interior NUL byte. -/
def nulEngine : Engine where
  loadMemDocument := fun _ _ => some 2
  getPageCount := fun _ => 1
  loadPage := fun _ _ => some 8
  textLoadPage := fun _ => some 9
  countChars := fun _ => 1
  getText := fun _ _ => (2, [0, 0])
  pdfToJson := fun _ _ _ => some [0]

/-- Concrete engine with 3 pages that all load and extract the text
"Hi" (2 characters reported, 3 units written including the terminator). -/
def threePagesEngine : Engine where
  loadMemDocument := fun _ _ => some 11
  getPageCount := fun _ => 3
  loadPage := fun _ i => some (30 + i)
  textLoadPage := fun p => some (50 + p)
  countChars := fun _ => 2
  getText := fun _ _ => (3, [72, 105, 0])
  pdfToJson := fun _ _ _ => none

/-- Concrete engine whose document loads with zero pages. -/
def emptyDocEngine : Engine where
  loadMemDocument := fun _ _ => some 3
  getPageCount := fun _ => 0
  loadPage := fun _ _ => none
  textLoadPage := fun _ => none
  countChars := fun _ => 0
  getText := fun _ _ => (0, [])
  pdfToJson := fun _ _ _ => none

/-- Per-iteration handle accounting: in the trace of one loop iteration of
`extract_text`, the closed page handles are exactly the acquired page
handles (in order), likewise for text-page handles, no document is closed
and the native setup call never occurs. -/
theorem extractPage_balanced (e : Engine) (d : Nat) (pc : Int) (i : Nat) :
    ((extractPage e d pc i).1.filterMap pageRelOf
       = (extractPage e d pc i).1.filterMap pageAcqOf)
    ∧ ((extractPage e d pc i).1.filterMap textRelOf
       = (extractPage e d pc i).1.filterMap textAcqOf)
    ∧ ((extractPage e d pc i).1.filterMap docRelOf = [])
    ∧ ((extractPage e d pc i).1.filter isInitEv = []) := by
  unfold extractPage pageEvsOf
  cases hp : e.loadPage d i with
  | none =>
    simp [pageRelOf, pageAcqOf, textRelOf, textAcqOf, docRelOf, isInitEv]
  | some p =>
    cases ht : e.textLoadPage p with
    | none => simp [ht, pageRelOf, pageAcqOf, textRelOf, textAcqOf, docRelOf, isInitEv]
    | some t =>
      by_cases hn : 0 < e.countChars t
      · simp [ht, hn, pageRelOf, pageAcqOf, textRelOf, textAcqOf, docRelOf, isInitEv]
      · simp [ht, hn, pageRelOf, pageAcqOf, textRelOf, textAcqOf, docRelOf, isInitEv]

/-- A nonempty list is not `isEmpty`. -/
theorem isEmpty_false_of_ne {bytes : List Nat} (hne : bytes ≠ []) :
    bytes.isEmpty = false := by
  cases bytes with
  | nil => exact absurd rfl hne
  | cons b bs => rfl

/-- Shape of the native-call trace of `extract_text` when the document
loads: initialization, load, page count, the per-page iterations in order,
and finally the single document close. -/
theorem extract_text_trace_shape (e : Engine) (st : Bool) (bytes : List Nat) (d : Nat)
    (hne : bytes ≠ [])
    (hload : e.loadMemDocument bytes (as32 bytes.length) = some d) :
    (extract_text e st bytes).1
      = (initializeR st).1.1 ++ Ev.loadDoc (some d) :: Ev.pageCount d (e.getPageCount d) ::
          ((((List.range (e.getPageCount d).toNat).map
              fun i => (extractPage e d (e.getPageCount d) i).1).flatten)
            ++ [Ev.closeDoc d]) := by
  simp [extract_text, isEmpty_false_of_ne hne, hload]

/-- C2: in every execution of `extract_text` on which the document loads,
the sequence of released page handles equals the sequence of acquired page
handles (so each acquisition is matched by exactly one release, on every
control path), likewise for text-page handles, and the trace ends with the
one and only `FPDF_CloseDocument` event — hence every page/text-page
release precedes the document release, which happens exactly once before
the function returns. -/
theorem extract_text_releases_every_acquired_handle
    (e : Engine) (st : Bool) (bytes : List Nat) (d : Nat)
    (hne : bytes ≠ [])
    (hload : e.loadMemDocument bytes (as32 bytes.length) = some d) :
    ((extract_text e st bytes).1.filterMap pageRelOf
       = (extract_text e st bytes).1.filterMap pageAcqOf)
    ∧ ((extract_text e st bytes).1.filterMap textRelOf
       = (extract_text e st bytes).1.filterMap textAcqOf)
    ∧ ∃ tr, (extract_text e st bytes).1 = tr ++ [Ev.closeDoc d]
        ∧ tr.filterMap docRelOf = [] := by
  have hshape := extract_text_trace_shape e st bytes d hne hload
  refine ⟨?_, ?_, ?_⟩
  · rw [hshape]
    have h1 : ∀ i, (extractPage e d (e.getPageCount d) i).1.filterMap pageRelOf
        = (extractPage e d (e.getPageCount d) i).1.filterMap pageAcqOf :=
      fun i => (extractPage_balanced e d (e.getPageCount d) i).1
    have hcomp : (List.filterMap pageRelOf ∘ fun i => (extractPage e d (e.getPageCount d) i).1)
        = (List.filterMap pageAcqOf ∘ fun i => (extractPage e d (e.getPageCount d) i).1) :=
      funext fun i => h1 i
    cases st <;>
      simp [initializeR, pageRelOf, pageAcqOf, List.filterMap_flatten, List.map_map, hcomp]
  · rw [hshape]
    have h2 : ∀ i, (extractPage e d (e.getPageCount d) i).1.filterMap textRelOf
        = (extractPage e d (e.getPageCount d) i).1.filterMap textAcqOf :=
      fun i => (extractPage_balanced e d (e.getPageCount d) i).2.1
    have hcomp : (List.filterMap textRelOf ∘ fun i => (extractPage e d (e.getPageCount d) i).1)
        = (List.filterMap textAcqOf ∘ fun i => (extractPage e d (e.getPageCount d) i).1) :=
      funext fun i => h2 i
    cases st <;>
      simp [initializeR, textRelOf, textAcqOf, List.filterMap_flatten, List.map_map, hcomp]
  · refine ⟨(initializeR st).1.1 ++ Ev.loadDoc (some d) :: Ev.pageCount d (e.getPageCount d) ::
        (((List.range (e.getPageCount d).toNat).map
            fun i => (extractPage e d (e.getPageCount d) i).1).flatten), ?_, ?_⟩
    · rw [hshape]; simp
    · have h3 : ∀ i, (extractPage e d (e.getPageCount d) i).1.filterMap docRelOf = [] :=
        fun i => (extractPage_balanced e d (e.getPageCount d) i).2.2.1
      have hcomp : (List.filterMap docRelOf ∘ fun i => (extractPage e d (e.getPageCount d) i).1)
          = (fun _ => ([] : List Nat)) := funext fun i => h3 i
      cases st <;>
        simp [initializeR, docRelOf, List.filterMap_flatten, List.map_map, hcomp]

/-- C2 witness: the handle-release discipline at a concrete engine whose
four pages exercise every per-page branch. -/
theorem extract_text_releases_every_acquired_handle_witness :
    (((extract_text mixEngine true [1, 2]).1.filterMap pageRelOf
       = (extract_text mixEngine true [1, 2]).1.filterMap pageAcqOf)
    ∧ ((extract_text mixEngine true [1, 2]).1.filterMap textRelOf
       = (extract_text mixEngine true [1, 2]).1.filterMap textAcqOf)
    ∧ ∃ tr, (extract_text mixEngine true [1, 2]).1 = tr ++ [Ev.closeDoc 5]
        ∧ tr.filterMap docRelOf = []) :=
  extract_text_releases_every_acquired_handle mixEngine true [1, 2] 5 (by decide) rfl

/-- Counting setup events distributes over trace concatenation. -/
theorem countInitLib_append (a b : List Ev) :
    countInitLib (a ++ b) = countInitLib a + countInitLib b := by
  simp [countInitLib, List.filter_append]

/-- C3: on empty input both pipelines fail with `InvalidData`, and the only
native call possibly performed is the initialization step (no document
load, no conversion call): the emptiness check precedes every other call. -/
theorem empty_input_invalid_data_no_native_calls (e : Engine) (st : Bool) :
    ((extract_text e st []).2.2 = Except.error PdfiumError.invalidData)
    ∧ ((pdf_to_json e st []).2.2 = Except.error PdfiumError.invalidData)
    ∧ ((extract_text e st []).1 = if st then [] else [Ev.initLib])
    ∧ ((pdf_to_json e st []).1 = if st then [] else [Ev.initLib]) := by
  cases st <;> simp [extract_text, pdf_to_json, initializeR]

/-- C9: `initialize` returns `Ok(())` on every call (the native setup
routine returns void and offers no failure signal), the C-ABI
`pdfium_wasm_init` always returns 1, and no operation ever returns
the `InitializationFailed` error variant. -/
theorem initialization_never_fails (e : Engine) (st : Bool) (bytes : List Nat) :
    ((initializeR st).2 = Except.ok ())
    ∧ ((pdfium_wasm_init st).2 = 1)
    ∧ ((extract_text e st bytes).2.2 ≠ Except.error PdfiumError.initializationFailed)
    ∧ ((pdf_to_json e st bytes).2.2 ≠ Except.error PdfiumError.initializationFailed) := by
  refine ⟨?_, ?_, ?_, ?_⟩
  · cases st <;> rfl
  · cases st <;> rfl
  · by_cases hb : bytes.isEmpty = true
    · simp [extract_text, hb]
    · cases hl : e.loadMemDocument bytes (as32 bytes.length) <;>
        simp [extract_text, hb, hl]
  · by_cases hb : bytes.isEmpty = true
    · simp [pdf_to_json, hb]
    · cases hl : e.pdfToJson bytes bytes.length 2 <;>
        simp [pdf_to_json, hb, hl]

/-- C9 witness: first-call success of the initializer and of its C-ABI
wrapper. -/
theorem initialization_never_fails_witness :
    ((initializeR false).2 = Except.ok ()) ∧ ((pdfium_wasm_init false).2 = 1) :=
  ⟨(initialization_never_fails mixEngine false []).1,
   (initialization_never_fails mixEngine false []).2.1⟩

/-- C5: in `extract_text`, per-page failures never fail the whole call —
whenever the document loads, the result is `Ok` with the accumulated text,
whatever each page does (including all pages unreadable, which yields the
empty string as a success); the only call-fatal conditions are empty input
(`InvalidData`) and a null document handle (`ExtractionFailed`). -/
theorem per_page_failures_absorbed (e : Engine) (st : Bool) (bytes : List Nat) :
    (bytes = [] → (extract_text e st bytes).2.2 = Except.error PdfiumError.invalidData)
    ∧ (bytes ≠ [] → e.loadMemDocument bytes (as32 bytes.length) = none →
        (extract_text e st bytes).2.2
          = Except.error (PdfiumError.extractionFailed "Failed to load PDF document"))
    ∧ (∀ d, bytes ≠ [] → e.loadMemDocument bytes (as32 bytes.length) = some d →
        (extract_text e st bytes).2.2
          = Except.ok (((List.range (e.getPageCount d).toNat).map
              fun i => (extractPage e d (e.getPageCount d) i).2).flatten)) := by
  refine ⟨?_, ?_, ?_⟩
  · intro h; subst h; simp [extract_text]
  · intro hne hl; simp [extract_text, isEmpty_false_of_ne hne, hl]
  · intro d hne hl; simp [extract_text, isEmpty_false_of_ne hne, hl]

/-- C5 witness: a document whose three pages are all unreadable still
succeeds, returning the empty string. -/
theorem per_page_failures_absorbed_witness :
    (extract_text unreadableEngine true [9]).2.2 = Except.ok [] := by
  have h := (per_page_failures_absorbed unreadableEngine true [9]).2.2 7 (by decide) rfl
  exact h.trans (congrArg Except.ok (by decide))

/-- A loop trace never contains the native setup call. -/
theorem filter_isInit_flatten_nil (e : Engine) (d : Nat) (pc : Int) (l : List Nat) :
    (((l.map fun i => (extractPage e d pc i).1).flatten).filter isInitEv) = [] := by
  induction l with
  | nil => rfl
  | cons a l ih =>
    simp [List.filter_append, (extractPage_balanced e d pc a).2.2.2, ih]

/-- Setup-call count of `extract_text`: one when the latch was unset,
zero otherwise. -/
theorem extract_text_initCount (e : Engine) (st : Bool) (bytes : List Nat) :
    countInitLib (extract_text e st bytes).1 = (if st then 0 else 1) := by
  by_cases hb : bytes.isEmpty = true
  · cases st <;> simp [extract_text, hb, initializeR, countInitLib, isInitEv]
  · cases hl : e.loadMemDocument bytes (as32 bytes.length) with
    | none => cases st <;> simp [extract_text, hb, hl, initializeR, countInitLib, isInitEv]
    | some d =>
      have hcomp : (List.length ∘ List.filter isInitEv ∘
            fun i => (extractPage e d (e.getPageCount d) i).1)
          = (fun _ : Nat => (0 : Nat)) :=
        funext fun i => by simp [(extractPage_balanced e d (e.getPageCount d) i).2.2.2]
      cases st <;>
        simp [extract_text, hb, hl, initializeR, countInitLib, isInitEv,
          List.filter_append, hcomp]

/-- Setup-call count of `pdf_to_json`: one when the latch was unset,
zero otherwise. -/
theorem pdf_to_json_initCount (e : Engine) (st : Bool) (bytes : List Nat) :
    countInitLib (pdf_to_json e st bytes).1 = (if st then 0 else 1) := by
  by_cases hb : bytes.isEmpty = true
  · cases st <;> simp [pdf_to_json, hb, initializeR, countInitLib, isInitEv]
  · cases hl : e.pdfToJson bytes bytes.length 2 <;> cases st <;>
      simp [pdf_to_json, hb, hl, initializeR, countInitLib, isInitEv, List.filter_append]

/-- The latch is set after `extract_text`, on every path. -/
theorem extract_text_inited (e : Engine) (st : Bool) (bytes : List Nat) :
    (extract_text e st bytes).2.1 = true := by
  by_cases hb : bytes.isEmpty = true
  · simp [extract_text, hb]
  · cases hl : e.loadMemDocument bytes (as32 bytes.length) <;> simp [extract_text, hb, hl]

/-- The latch is set after `pdf_to_json`, on every path. -/
theorem pdf_to_json_inited (e : Engine) (st : Bool) (bytes : List Nat) :
    (pdf_to_json e st bytes).2.1 = true := by
  by_cases hb : bytes.isEmpty = true
  · simp [pdf_to_json, hb]
  · cases hl : e.pdfToJson bytes bytes.length 2 <;> simp [pdf_to_json, hb, hl]

/-- Every public operation performs the native setup exactly when the latch
was unset, and leaves the latch set. -/
theorem runOp_counts (e : Engine) (st : Bool) (op : Op) :
    countInitLib (runOp e st op).1 = (if st then 0 else 1) ∧ (runOp e st op).2 = true := by
  cases op with
  | initOp => cases st <;> simp [runOp, initializeR, countInitLib, isInitEv]
  | extractOp bs => exact ⟨extract_text_initCount e st bs, extract_text_inited e st bs⟩
  | toJsonOp bs => exact ⟨pdf_to_json_initCount e st bs, pdf_to_json_inited e st bs⟩

/-- After the latch is set, no sequence of public operations ever performs
the native setup again. -/
theorem runOps_done (e : Engine) (ops : List Op) :
    countInitLib (runOps e true ops).1 = 0 ∧ (runOps e true ops).2 = true := by
  induction ops with
  | nil => exact ⟨rfl, rfl⟩
  | cons op ops ih =>
    have h1 := (runOp_counts e true op).1
    have h2 := (runOp_counts e true op).2
    simp only [runOps, countInitLib_append, h1, h2] at *
    simp [ih.1, ih.2, h1, h2]

/-- Once the latch is set, further `initialize` calls emit nothing and all
return `Ok(())`. -/
theorem runInitCalls_done (n : Nat) :
    runInitCalls n true = ([], true, List.replicate n (Except.ok ())) := by
  induction n with
  | zero => rfl
  | succ n ih => simp [runInitCalls, initializeR, ih, List.replicate]

/-- C1: any positive number of `initialize` calls (concurrent callers are
serialized by the atomicity of `Once.call_once`, so every schedule is an
instance of `runInitCalls`) performs the native setup exactly once and
every call returns the outcome of that single execution, `Ok(())`; and any
nonempty sequence of public operations — each of which runs `initialize`
internally — also performs the native setup exactly once per process. -/
theorem initialize_runs_native_setup_exactly_once (e : Engine) (n : Nat) (ops : List Op) :
    (0 < n → countInitLib (runInitCalls n false).1 = 1
       ∧ (runInitCalls n false).2.2 = List.replicate n (Except.ok ()))
    ∧ (ops ≠ [] → countInitLib (runOps e false ops).1 = 1) := by
  constructor
  · intro hn
    match n, hn with
    | Nat.succ m, _ =>
      simp [runInitCalls, initializeR, runInitCalls_done, countInitLib, isInitEv,
        List.replicate]
  · intro hne
    match ops, hne with
    | op :: ops, _ =>
      have h1 := (runOp_counts e false op).1
      have h2 := (runOp_counts e false op).2
      have h3 := (runOps_done e ops).1
      simp [runOps, countInitLib_append, h1, h2, h3]

/-- C1 witness: three `initialize` calls and a three-operation sequence
each trigger exactly one native setup, with all calls succeeding. -/
theorem initialize_runs_native_setup_exactly_once_witness :
    (countInitLib (runInitCalls 3 false).1 = 1
       ∧ (runInitCalls 3 false).2.2 = List.replicate 3 (Except.ok ()))
    ∧ countInitLib
        (runOps mixEngine false [Op.extractOp [1], Op.initOp, Op.toJsonOp [2]]).1 = 1 :=
  ⟨(initialize_runs_native_setup_exactly_once mixEngine 3 []).1 (by decide),
   (initialize_runs_native_setup_exactly_once mixEngine 3
      [Op.extractOp [1], Op.initOp, Op.toJsonOp [2]]).2 (by simp)⟩

/-- C6: for every page whose text-page handle is obtained, the character
count is queried; the native text call is made with that count exactly
when the count is positive (never otherwise); and when the call reports a
positive number `w` of UTF-16 units written, the buffer is truncated to
`w - 1` units and decoded as UTF-16 with lossy substitution — the page
never fails the extraction. -/
theorem text_page_count_truncate_decode (e : Engine) (d : Nat) (pc : Int) (i : Nat)
    (p t : Nat) (hp : e.loadPage d i = some p) (ht : e.textLoadPage p = some t) :
    (Ev.countChars t (e.countChars t) ∈ (extractPage e d pc i).1)
    ∧ (0 < e.countChars t →
        (Ev.getText t (e.countChars t) (e.getText t (e.countChars t)).1
           ∈ (extractPage e d pc i).1)
        ∧ pageTextOf e p
          = (if 0 < (e.getText t (e.countChars t)).1 then
              utf16Lossy ((e.getText t (e.countChars t)).2.take
                ((e.getText t (e.countChars t)).1 - 1).toNat)
            else []))
    ∧ (¬ 0 < e.countChars t →
        pageTextOf e p = [] ∧ ∀ a b c, Ev.getText a b c ∉ (extractPage e d pc i).1) := by
  by_cases hn : 0 < e.countChars t <;>
    simp [extractPage, pageEvsOf, pageTextOf, hp, ht, hn]

/-- C6 witness: page 1 of the mixed engine reports 3 characters, the
native call writes 4 units, and the decoded text is the first 3 units. -/
theorem text_page_count_truncate_decode_witness :
    pageTextOf mixEngine 21 = ['H', 'i', '!']
    ∧ Ev.getText 61 3 4 ∈ (extractPage mixEngine 5 4 1).1 := by
  have h := text_page_count_truncate_decode mixEngine 5 4 1 21 61 rfl rfl
  have h2 := h.2.1 (by decide)
  exact ⟨h2.2.trans (by decide), h2.1⟩

/-- A C string buffer produced by the shim is never the null list. -/
theorem cStringBytes_ne_nil (s : List Char) : cStringBytes s ≠ [] := by
  unfold cStringBytes
  by_cases h : 0 ∈ utf8Encode s <;> simp [h]

/-- A C string buffer produced by the shim always ends with the NUL
terminator. -/
theorem cStringBytes_last (s : List Char) : (cStringBytes s).getLast? = some 0 := by
  unfold cStringBytes
  by_cases h : 0 ∈ utf8Encode s <;> simp [h]

/-- C7: the C-ABI exports return null for a null data pointer or zero
length without any native activity; they return null whenever the
underlying pipeline fails; and when the pipeline succeeds they return a
non-null, NUL-terminated buffer holding the UTF-8 C-string bytes of the
result (ownership of which passes to the caller). -/
theorem wasm_shim_null_and_success_contract (e : Engine) (st : Bool)
    (mem : List Nat) (len : Nat) :
    ((pdfium_wasm_extract_text e st none len).2.2 = none
      ∧ (pdfium_wasm_extract_text e st none len).1 = []
      ∧ (pdfium_wasm_pdf_to_json e st none len).2.2 = none
      ∧ (pdfium_wasm_pdf_to_json e st none len).1 = [])
    ∧ ((pdfium_wasm_extract_text e st (some mem) 0).2.2 = none
      ∧ (pdfium_wasm_extract_text e st (some mem) 0).1 = []
      ∧ (pdfium_wasm_pdf_to_json e st (some mem) 0).2.2 = none
      ∧ (pdfium_wasm_pdf_to_json e st (some mem) 0).1 = [])
    ∧ (len ≠ 0 → ∀ er, (extract_text e st (mem.take len)).2.2 = Except.error er →
        (pdfium_wasm_extract_text e st (some mem) len).2.2 = none)
    ∧ (len ≠ 0 → ∀ txt, (extract_text e st (mem.take len)).2.2 = Except.ok txt →
        (pdfium_wasm_extract_text e st (some mem) len).2.2 = some (cStringBytes txt)
          ∧ cStringBytes txt ≠ [] ∧ (cStringBytes txt).getLast? = some 0)
    ∧ (len ≠ 0 → ∀ er, (pdf_to_json e st (mem.take len)).2.2 = Except.error er →
        (pdfium_wasm_pdf_to_json e st (some mem) len).2.2 = none)
    ∧ (len ≠ 0 → ∀ txt, (pdf_to_json e st (mem.take len)).2.2 = Except.ok txt →
        (pdfium_wasm_pdf_to_json e st (some mem) len).2.2 = some (cStringBytes txt)
          ∧ cStringBytes txt ≠ [] ∧ (cStringBytes txt).getLast? = some 0) := by
  refine ⟨⟨rfl, rfl, rfl, rfl⟩, ⟨rfl, rfl, rfl, rfl⟩, ?_, ?_, ?_, ?_⟩
  · intro hlen er hres
    simp [pdfium_wasm_extract_text, hlen, hres]
  · intro hlen txt hres
    exact ⟨by simp [pdfium_wasm_extract_text, hlen, hres],
      cStringBytes_ne_nil txt, cStringBytes_last txt⟩
  · intro hlen er hres
    simp [pdfium_wasm_pdf_to_json, hlen, hres]
  · intro hlen txt hres
    exact ⟨by simp [pdfium_wasm_pdf_to_json, hlen, hres],
      cStringBytes_ne_nil txt, cStringBytes_last txt⟩

/-- C7 witness: a successful zero-page extraction crosses the shim as the
empty C string, and a null data pointer short-circuits to null. -/
theorem wasm_shim_null_and_success_contract_witness :
    (pdfium_wasm_extract_text emptyDocEngine true (some [9]) 1).2.2 = some [0]
    ∧ (pdfium_wasm_extract_text emptyDocEngine true none 1).2.2 = none := by
  have h := (wasm_shim_null_and_success_contract emptyDocEngine true [9] 1).2.2.2.1
      (by decide) [] rfl
  exact ⟨h.1.trans (congrArg some (by decide)),
    (wasm_shim_null_and_success_contract emptyDocEngine true [9] 1).1.1⟩

/-- C8: for nonempty input, `pdf_to_json` performs exactly one conversion
call, passing the byte buffer, its length and version 2; a null result maps
to `ConversionFailed` with no free call; a non-null result is decoded as
UTF-8 with lossy substitution and the native buffer is released by exactly
one `IPDF_QPDF_FreeString` call — the whole trace being the conversion
call followed by that free, so no other release routine ever runs. -/
theorem pdf_to_json_single_conversion (e : Engine) (st : Bool) (bytes : List Nat)
    (hne : bytes ≠ []) :
    ((pdf_to_json e st bytes).1.filter isConvEv
       = [Ev.qpdfConvert bytes bytes.length 2 (e.pdfToJson bytes bytes.length 2)])
    ∧ (e.pdfToJson bytes bytes.length 2 = none →
        (pdf_to_json e st bytes).2.2
          = Except.error (PdfiumError.conversionFailed "Failed to convert PDF to JSON")
        ∧ (pdf_to_json e st bytes).1.filter isFreeEv = [])
    ∧ (∀ s, e.pdfToJson bytes bytes.length 2 = some s →
        (pdf_to_json e st bytes).2.2
          = Except.ok (utf8Lossy (s.takeWhile (fun b => b != 0)))
        ∧ (pdf_to_json e st bytes).1
          = (initializeR st).1.1
            ++ [Ev.qpdfConvert bytes bytes.length 2 (some s), Ev.qpdfFree]) := by
  have hb := isEmpty_false_of_ne hne
  refine ⟨?_, ?_, ?_⟩
  · cases hl : e.pdfToJson bytes bytes.length 2 <;> cases st <;>
      simp [pdf_to_json, hb, hl, initializeR, isConvEv, isFreeEv]
  · intro hl; cases st <;> simp [pdf_to_json, hb, hl, initializeR, isConvEv, isFreeEv]
  · intro s hl; cases st <;> simp [pdf_to_json, hb, hl, initializeR, isConvEv, isFreeEv]

/-- C8 witness: a conversion returning the two-byte object dump decodes to
its two characters and the trace is exactly the conversion call followed
by the QPDF free call. -/
theorem pdf_to_json_single_conversion_witness :
    (pdf_to_json mixEngine true [7]).2.2 = Except.ok (utf8Lossy [123, 125])
    ∧ (pdf_to_json mixEngine true [7]).1
      = [Ev.qpdfConvert [7] 1 2 (some [123, 125, 0]), Ev.qpdfFree] := by
  have h := (pdf_to_json_single_conversion mixEngine true [7] (by decide)).2.2
      [123, 125, 0] rfl
  exact ⟨h.1.trans (congrArg Except.ok (by decide)), h.2.trans (by decide)⟩

/-- C10: if a pipeline succeeds but its string has an interior NUL byte,
the C-ABI exports return a non-null pointer to the empty C string (the
lone terminator byte) instead of the text and instead of null. -/
theorem interior_nul_yields_empty_cstring (e : Engine) (st : Bool)
    (mem : List Nat) (len : Nat) (hlen : len ≠ 0) :
    (∀ txt, (extract_text e st (mem.take len)).2.2 = Except.ok txt →
        0 ∈ utf8Encode txt →
        (pdfium_wasm_extract_text e st (some mem) len).2.2 = some [0])
    ∧ (∀ txt, (pdf_to_json e st (mem.take len)).2.2 = Except.ok txt →
        0 ∈ utf8Encode txt →
        (pdfium_wasm_pdf_to_json e st (some mem) len).2.2 = some [0]) := by
  constructor <;> intro txt hok hnul <;>
    simp [pdfium_wasm_extract_text, pdfium_wasm_pdf_to_json, hlen, hok, cStringBytes, hnul]

/-- C10 witness: a page whose extracted text is one NUL character crosses
the shim as a non-null empty C string. -/
theorem interior_nul_yields_empty_cstring_witness :
    (pdfium_wasm_extract_text nulEngine true (some [1]) 1).2.2 = some [0] := by
  have h := (interior_nul_yields_empty_cstring nulEngine true [1] 1 (by decide)).1
      [Char.ofNat 0] rfl (by decide)
  exact h

/-- Every character of a matched pattern occurs in the matched text. -/
theorem memOfStarts {pat s : List Char} (h : startsWith pat s = true) :
    ∀ c ∈ pat, c ∈ s := by
  induction pat generalizing s with
  | nil => intro c hc; exact absurd hc (List.not_mem_nil c)
  | cons p ps ih =>
    cases s with
    | nil => exact absurd h (by simp [startsWith])
    | cons a as =>
      intro c hc
      rw [startsWith] at h
      by_cases hpa : p = a
      · rw [if_pos hpa] at h
        rcases List.mem_cons.mp hc with hcp | hcs
        · exact List.mem_cons.mpr (Or.inl (hcp.trans hpa))
        · exact List.mem_cons_of_mem a (ih h c hcs)
      · rw [if_neg hpa] at h
        exact absurd h (by simp)

/-- A string without the dash character contains no occurrence of the
separator (which contains dashes). -/
theorem countOcc_zero_of_dashFree (s : List Char) (hd : '-' ∉ s) :
    countOcc sepChars s = 0 := by
  induction s with
  | nil => rfl
  | cons c s ih =>
    have hd' : '-' ∉ s := fun h => hd (List.mem_cons_of_mem c h)
    rw [countOcc]
    cases hsw : startsWith sepChars (c :: s) with
    | true => exact absurd (memOfStarts hsw '-' (by decide)) hd
    | false => simp [ih hd']

/-- No occurrence of the separator starts inside a nonempty dash-free text
placed directly before a separator. -/
theorem noStartInText (t J : List Char) (hd : '-' ∉ t) (hne : t ≠ []) :
    startsWith sepChars (t ++ (sepChars ++ J)) = false := by
  match t, hne with
  | [c], _ =>
    by_cases hc : c = '\n'
    · subst hc
      simp +decide [sepChars, startsWith]
    · simp +decide [sepChars, startsWith, hc]
  | c :: c2 :: t2, _ =>
    have h2 : ¬ (c2 = '-') := fun h => hd (by simp [h])
    by_cases hc : c = '\n'
    · subst hc
      simp +decide [sepChars, startsWith]
      intro h
      exact absurd h.symm h2
    · simp +decide [sepChars, startsWith]
      intro h h2
      exact absurd h.symm hc

/-- Prepending a dash-free text before a separator adds no separator
occurrence. -/
theorem countOcc_text_append (t J : List Char) (hd : '-' ∉ t) :
    countOcc sepChars (t ++ (sepChars ++ J)) = countOcc sepChars (sepChars ++ J) := by
  induction t with
  | nil => rfl
  | cons c t ih =>
    have hd' : '-' ∉ t := fun h => hd (List.mem_cons_of_mem c h)
    have hne : (c :: t) ≠ ([] : List Char) := by simp
    have hfalse := noStartInText (c :: t) J hd hne
    rw [List.cons_append, countOcc, ← List.cons_append, hfalse]
    simp [ih hd']

/-- A join of dash-free page texts never starts with a dash. -/
theorem startsDashFalse (ts : List (List Char)) (h : ∀ t ∈ ts, '-' ∉ t)
    (l : List Char) : startsWith ('-' :: l) (joinPages ts) = false := by
  match ts with
  | [] => rfl
  | [t] =>
    cases ht : t with
    | nil => simp [joinPages, startsWith]
    | cons c t2 =>
      have hc : ¬ ('-' = c) := by
        intro hh
        exact h t (by simp) (by rw [ht, ← hh]; exact List.mem_cons_self '-' t2)
      simp [joinPages, startsWith, hc]
  | t :: b :: ts2 =>
    cases ht : t with
    | nil => simp +decide [joinPages, sepChars, startsWith]
    | cons c t2 =>
      have hc : ¬ ('-' = c) := by
        intro hh
        exact h t (by simp) (by rw [ht, ← hh]; exact List.mem_cons_self '-' t2)
      simp [joinPages, startsWith, hc]

/-- A separator placed before a join of dash-free page texts contributes
exactly one occurrence. -/
theorem countOcc_sep_append (ts : List (List Char)) (h : ∀ t ∈ ts, '-' ∉ t) :
    countOcc sepChars (sepChars ++ joinPages ts)
      = 1 + countOcc sepChars (joinPages ts) := by
  have hJ := startsDashFalse ts h
  simp +decide [sepChars, countOcc, startsWith, hJ]

/-- Joining `K` dash-free page texts produces exactly `K - 1` occurrences
of the separator. -/
theorem countOcc_joinPages (ts : List (List Char)) (hne : ts ≠ [])
    (h : ∀ t ∈ ts, '-' ∉ t) :
    countOcc sepChars (joinPages ts) = ts.length - 1 := by
  induction ts with
  | nil => exact absurd rfl hne
  | cons t ts ih =>
    cases ts with
    | nil =>
      simp [joinPages, countOcc_zero_of_dashFree t (h t (by simp))]
    | cons b rest =>
      have hj : joinPages (t :: b :: rest) = t ++ (sepChars ++ joinPages (b :: rest)) := by
        simp [joinPages]
      have hrest : ∀ x ∈ b :: rest, '-' ∉ x := fun x hx => h x (List.mem_cons_of_mem t hx)
      rw [hj, countOcc_text_append t _ (h t (by simp)), countOcc_sep_append _ hrest,
        ih (by simp) hrest]
      simp
      omega

/-- Appending one final page text to a join places the separator after
each earlier text and none after the last. -/
theorem joinPages_concat (ts : List (List Char)) (t : List Char) :
    joinPages (ts ++ [t]) = ((ts.map fun s => s ++ sepChars).flatten) ++ t := by
  induction ts with
  | nil => simp [joinPages]
  | cons a ts ih =>
    cases ts with
    | nil => simp [joinPages]
    | cons b rest =>
      simp only [List.cons_append, joinPages, List.map_cons, List.flatten_cons]
      rw [List.cons_append] at ih
      simp [ih, List.append_assoc]

/-- The loop's per-index separator condition (`i < page_count - 1`)
realizes exactly the join of the page texts. -/
theorem flatten_sep_eq_joinPages (K : Nat) (f : Nat → List Char) :
    ((List.range K).map fun i => f i ++ if i + 1 < K then sepChars else []).flatten
      = joinPages ((List.range K).map f) := by
  cases K with
  | zero => rfl
  | succ m =>
    rw [List.range_succ]
    have hmap : (List.range m).map (fun i => f i ++ if i + 1 < m + 1 then sepChars else [])
        = (List.range m).map (fun i => f i ++ sepChars) := by
      apply List.map_congr_left
      intro i hi
      have : i + 1 < m + 1 := by
        have := List.mem_range.mp hi
        omega
      simp [this]
    simp only [List.map_append, hmap, List.map_cons, List.map_nil]
    rw [joinPages_concat]
    simp [List.map_map]
    rfl

/-- C4 (amended): when the document loads and every page index yields a
page handle, the result of `extract_text` is exactly the per-page texts
joined by the separator `"\n---PAGE BREAK---\n"` — appended after each
page except the last, never before the first or after the last — and
whenever additionally no page's text contains the dash character, the
output contains exactly `K - 1` occurrences of the separator for native
page count `K`.  (The two extra hypotheses are forced by the code: a page
that fails to load hits `continue`, which also skips the separator push,
and a page whose own text contains the separator adds occurrences; see the
counterexample.) -/
theorem extract_text_joins_pages (e : Engine) (st : Bool) (bytes : List Nat) (d : Nat)
    (hne : bytes ≠ [])
    (hload : e.loadMemDocument bytes (as32 bytes.length) = some d)
    (hpages : ∀ i < (e.getPageCount d).toNat, (e.loadPage d i).isSome = true) :
    ((extract_text e st bytes).2.2
       = Except.ok (joinPages
           ((List.range (e.getPageCount d).toNat).map (rawPageText e d))))
    ∧ ((∀ i < (e.getPageCount d).toNat, '-' ∉ rawPageText e d i) →
        0 < (e.getPageCount d).toNat →
        countOcc sepChars
            (joinPages ((List.range (e.getPageCount d).toNat).map (rawPageText e d)))
          = (e.getPageCount d).toNat - 1) := by
  have hresult := (per_page_failures_absorbed e st bytes).2.2 d hne hload
  have hco : ∀ i ∈ List.range (e.getPageCount d).toNat,
      (extractPage e d (e.getPageCount d) i).2
        = rawPageText e d i
          ++ if i + 1 < (e.getPageCount d).toNat then sepChars else [] := by
    intro i hi
    have hiK := List.mem_range.mp hi
    obtain ⟨p, hp⟩ := Option.isSome_iff_exists.mp (hpages i hiK)
    have hiff : ((i : Int) < e.getPageCount d - 1)
        ↔ (i + 1 < (e.getPageCount d).toNat) := by
      omega
    have hite : (if (i : Int) < e.getPageCount d - 1 then sepChars else [])
        = (if i + 1 < (e.getPageCount d).toNat then sepChars else []) :=
      if_congr hiff rfl rfl
    simp [extractPage, rawPageText, hp, hite]
  constructor
  · rw [hresult]
    rw [List.map_congr_left hco, flatten_sep_eq_joinPages]
  · intro hdash hpos
    have hts : ((List.range (e.getPageCount d).toNat).map (rawPageText e d)) ≠ [] := by
      intro hcon
      have := congrArg List.length hcon
      simp at this
      omega
    have hdash2 : ∀ t ∈ (List.range (e.getPageCount d).toNat).map (rawPageText e d),
        '-' ∉ t := by
      intro t ht
      obtain ⟨i, hi, rfl⟩ := List.mem_map.mp ht
      exact hdash i (List.mem_range.mp hi)
    rw [countOcc_joinPages _ hts hdash2]
    simp

/-- C4 witness: a three-page document whose pages all load and read "Hi"
yields the three texts joined by the separator, with exactly 2 separator
occurrences. -/
theorem extract_text_joins_pages_witness :
    ((extract_text threePagesEngine true [4]).2.2
       = Except.ok (joinPages [['H', 'i'], ['H', 'i'], ['H', 'i']]))
    ∧ countOcc sepChars
        (joinPages ((List.range 3).map (rawPageText threePagesEngine 11))) = 2 := by
  have h := extract_text_joins_pages threePagesEngine true [4] 11 (by decide) rfl
      (by decide)
  exact ⟨h.1.trans (congrArg Except.ok (by decide)), (h.2 (by decide) (by decide)).trans rfl⟩

/-- C4 counterexample to the claim as stated: for `skipEngine` the native
page count is 2 but the returned string contains 0 occurrences of the
separator (page 0 fails to load and `continue` skips the separator push),
and for `cexEngine` the page count is 2 but the returned string contains 3
occurrences (each page's own text is the separator), so the count is not
always `K - 1`. -/
theorem separator_count_counterexample :
    (skipEngine.getPageCount 1 = 2
      ∧ (extract_text skipEngine true [5]).2.2 = Except.ok []
      ∧ countOcc sepChars [] = 0)
    ∧ (cexEngine.getPageCount 1 = 2
      ∧ (extract_text cexEngine true [37]).2.2
          = Except.ok ((sepChars ++ sepChars) ++ sepChars)
      ∧ countOcc sepChars ((sepChars ++ sepChars) ++ sepChars) = 3) := by
  refine ⟨⟨rfl, rfl, rfl⟩, ⟨rfl, by rfl, by decide⟩⟩

end PdfiumWasm
